import Mathlib

/-!
Verification of the refinement-loop orchestrator in `src/MOCC_2025/src/main.py`.

The Python source is shallowly embedded over `List Char`:
* `splitFirst sep s` finds the first occurrence of `sep` in `s` and returns the
  text before and after it; the Python forms `s.split(sep)[0]` and `s.split(sep)[1]`
  are `pyIndex0` and `pyIndex1` (`pyIndex1` is `none` where Python raises `IndexError`).
* `replaceAll` is the Python `str.replace` (all non-overlapping occurrences,
  left to right); `strip` is `str.strip()`; `pyOr` is `x or y` on strings.
* The two language-model agents and the Lean verifier are external
  collaborators; they are modelled by an environment of oracles indexed by the
  call number, and each generation call is recorded in an event trace.
-/

/-- Python `str.isspace` characters relevant to `str.strip()` (ASCII range). -/
def pyIsSpace (c : Char) : Bool :=
  c.toNat = 32 || c.toNat = 9 || c.toNat = 10 || c.toNat = 13 ||
  c.toNat = 11 || c.toNat = 12

/-- Python `s.strip()`: drop whitespace from both ends. -/
def strip (s : List Char) : List Char :=
  ((s.dropWhile pyIsSpace).reverse.dropWhile pyIsSpace).reverse

/-- First occurrence of `sep` in `s`: `some (pre, post)` with `s = pre ++ sep ++ post`
and no occurrence of `sep` starting inside `pre`; `none` when `sep` does not occur. -/
def splitFirst (sep : List Char) : List Char → Option (List Char × List Char)
  | [] => if sep.isPrefixOf ([] : List Char) then some ([], []) else none
  | c :: rest =>
    if sep.isPrefixOf (c :: rest) then some ([], (c :: rest).drop sep.length)
    else (splitFirst sep rest).map (fun pr => (c :: pr.1, pr.2))

/-- Python `s.split(sep)[0]`: the text before the first occurrence of `sep`,
or all of `s` when `sep` does not occur (then the split has a single part). -/
def pyIndex0 (sep s : List Char) : List Char :=
  match splitFirst sep s with
  | none => s
  | some (pre, _) => pre

/-- Python `s.split(sep)[1]`: the text between the first and second occurrence
of `sep`; `none` models the `IndexError` raised when `sep` does not occur. -/
def pyIndex1 (sep s : List Char) : Option (List Char) :=
  match splitFirst sep s with
  | none => none
  | some (_, post) =>
    match splitFirst sep post with
    | none => some post
    | some (pre2, _) => some pre2

/-- Fuel-indexed scanner behind `replaceAll`; the fuel only forces structural
recursion and is always at least the length of the scanned list. -/
def replaceAllFuel (old new : List Char) : Nat → List Char → List Char
  | _, [] => []
  | 0, s => s
  | n + 1, c :: rest =>
    if old.isPrefixOf (c :: rest) then
      new ++ replaceAllFuel old new n (rest.drop (old.length - 1))
    else c :: replaceAllFuel old new n rest

/-- Python `s.replace(old, new)` for nonempty `old`: replace every
non-overlapping occurrence, scanning left to right. -/
def replaceAll (old new s : List Char) : List Char :=
  replaceAllFuel old new s.length s

instance {ε α : Type} [DecidableEq ε] [DecidableEq α] : DecidableEq (Except ε α) :=
  fun x y =>
    match x, y with
    | Except.ok a, Except.ok b => decidable_of_iff (a = b) (by simp)
    | Except.error e, Except.error f => decidable_of_iff (e = f) (by simp)
    | Except.ok _, Except.error _ => isFalse (fun h => Except.noConfusion h)
    | Except.error _, Except.ok _ => isFalse (fun h => Except.noConfusion h)

/-- Python truthiness fallback `s or t` on strings: `t` when `s` is empty. -/
def pyOr (s t : List Char) : List Char := if s = [] then t else s

/-- The literal `"sorry"` substituted for fragments that are still empty. -/
def sorryText : List Char := "sorry".data

/-- The `-- << CODE START >>` marker. -/
def codeStartMarker : List Char := "-- << CODE START >>".data

/-- The `-- << CODE END >>` marker. -/
def codeEndMarker : List Char := "-- << CODE END >>".data

/-- The `-- << PROOF START >>` marker. -/
def proofStartMarker : List Char := "-- << PROOF START >>".data

/-- The `-- << PROOF END >>` marker. -/
def proofEndMarker : List Char := "-- << PROOF END >>".data

/-- The template placeholder token for the implementation. -/
def codeToken : List Char := "\x7b\x7bcode\x7d\x7d".data

/-- The template placeholder token for the proof. -/
def proofToken : List Char := "\x7b\x7bproof\x7d\x7d".data

/-- The fallback split token: the proof placeholder followed by a newline. -/
def proofNlToken : List Char := "\x7b\x7bproof\x7d\x7d\n".data

/--
The `except Exception:` fallback of the extraction block:
```
parts = response.split("{{code}}")
if len(parts) > 1:
    code_snippet = parts[1].split("{{proof}}\n")[0].strip()
    proof_snippet = parts[1].split("{{proof}}\n")[1].strip()
```
`Except.error ()` is the uncaught `IndexError` raised by the second line when
`parts[1]` does not contain the token (the surrounding handler has already
been entered, so nothing catches it).
-/
def fallbackExtract (code0 proof0 response : List Char) :
    Except Unit (List Char × List Char) :=
  match pyIndex1 codeToken response with
  | none => Except.ok (code0, proof0)
  | some part1 =>
    match pyIndex1 proofNlToken part1 with
    | some seg => Except.ok (strip (pyIndex0 proofNlToken part1), strip seg)
    | none => Except.error ()

/--
The marker-extraction block of `main_workflow` (lines 74-85 of `main.py`):
```
try:
    code_snippet = response.split("-- << CODE START >>")[1].split("-- << CODE END >>")[0].strip()
    proof_snippet = response.split("-- << PROOF START >>")[1].split("-- << PROOF END >>")[0].strip()
except Exception:
    ...fallback...
```
`code0`/`proof0` are the values of the two variables before the block.  Note
that when the code markers are present but the proof start marker is absent,
`code_snippet` has already been reassigned before the exception is raised,
so the fallback runs with the updated code fragment.
-/
def extractStep (code0 proof0 response : List Char) :
    Except Unit (List Char × List Char) :=
  match pyIndex1 codeStartMarker response with
  | some seg =>
    match pyIndex1 proofStartMarker response with
    | some seg2 =>
      Except.ok (strip (pyIndex0 codeEndMarker seg),
                 strip (pyIndex0 proofEndMarker seg2))
    | none => fallbackExtract (strip (pyIndex0 codeEndMarker seg)) proof0 response
  | none => fallbackExtract code0 proof0 response

/--
The template injection of `main_workflow` (lines 87-92 of `main.py`):
`task_lean_code.replace("{{code}}", code_snippet).replace("{{proof}}", proof_snippet)`.
-/
def fillTemplate (tmpl code pf : List Char) : List Char :=
  replaceAll proofToken pf (replaceAll codeToken code tmpl)

/-- A chat message, as the dictionaries `{"role": ..., "content": ...}`. -/
structure Message where
  role : List Char
  content : List Char
deriving DecidableEq

/-- Which generation capability a call goes to: `llm` is the primary
`LLM_Agent(model="gpt-4o")`, `reasoner` the `Reasoning_Agent(model="o3-mini")`. -/
inductive AgentId where
  | llm
  | reasoner
deriving DecidableEq

/-- Observable side effects of the loop: a `get_response` invocation with its
messages, or a `time.sleep` pause (in seconds). -/
inductive Event where
  | call (agent : AgentId) (msgs : List Message)
  | sleep (secs : Nat)
deriving DecidableEq

/-- Outcome of one `get_response` invocation: a response text, or a raised
exception carrying its `str(e)` text. -/
inductive GenResult where
  | ok (response : List Char)
  | raise (err : List Char)
deriving DecidableEq

/-- An exception escaping `main_workflow`: the second generation failure of a
round, or the `IndexError` escaping the fallback extraction. -/
inductive PyError where
  | genError (msg : List Char)
  | indexError
deriving DecidableEq

/-- External collaborators: `gen k msgs` is the result of the `k`-th
`get_response` call of the run (0-based, counted across both agents), and
`verify k doc` is the `(success, stderr)` pair of the `k`-th
`execute_lean_code` call.  Indexing by call number lets the oracles be
stateful, as the real services are. -/
structure Env where
  gen : Nat → List Message → GenResult
  verify : Nat → List Char → Bool × List Char

/-- The loop-local state of `main_workflow`: the two fragment variables and
`last_error`, plus instrumentation (call counters and the event trace). -/
structure WfState where
  code : List Char
  proof : List Char
  lastError : List Char
  genCount : Nat
  verifyCount : Nat
  trace : List Event
deriving DecidableEq

/-- The result dictionary `{"code": ..., "proof": ...}` (`LeanCode` in the
source). -/
structure LeanCode where
  code : List Char
  proof : List Char
deriving DecidableEq

/-- Round-0 system message. -/
def round0SystemMsg : Message :=
  ⟨"system".data,
   "You are a Lean 4 expert. Fill the implementation and proof placeholders.".data⟩

/-- Round-0 user message; the f-string escapes `{{code}}`/`{{proof}}` to the
single-braced `{code}`/`{proof}` in the sent text. -/
def round0UserMsg (pd tmpl : List Char) : Message :=
  ⟨"user".data,
   "Problem Description:\n".data ++ pd ++
   "\n\nLean Template (with \x7bcode\x7d and \x7bproof\x7d):\n".data ++ tmpl⟩

/-- Refinement-round system message. -/
def refineSystemMsg : Message :=
  ⟨"system".data,
   ("You are a Lean 4 expert. The previous code failed with an error. " ++
    "Please fix the implementation or proof accordingly.").data⟩

/-- Refinement-round user message embedding the previous fragments and error. -/
def refineUserMsg (pd tmpl code0 proof0 err : List Char) : Message :=
  ⟨"user".data,
   "Problem Description:\n".data ++ pd ++
   "\n\nLean Template:\n".data ++ tmpl ++
   "\n\nLast implementation:\n".data ++ code0 ++
   "\n\nLast proof:\n".data ++ proof0 ++
   "\n\nLean Error Message:\n".data ++ err⟩

/-- Which agent a round invokes: the primary agent on round 0, the refinement
agent afterwards. -/
def roundAgent (ridx : Nat) : AgentId :=
  if ridx = 0 then AgentId.llm else AgentId.reasoner

/-- The message list a round sends, built from the current loop state. -/
def roundMsgs (pd tmpl : List Char) (ridx : Nat) (st : WfState) : List Message :=
  if ridx = 0 then [round0SystemMsg, round0UserMsg pd tmpl]
  else [refineSystemMsg, refineUserMsg pd tmpl st.code st.proof st.lastError]

/--
One guarded generation call:
```
try:
    response = agent.get_response(messages)
except Exception as e:
    last_error = str(e)
    time.sleep(5)
    response = agent.get_response(messages)
```
A second failure is uncaught, so the error is returned as `Except.error`.
-/
def attemptGen (env : Env) (agent : AgentId) (msgs : List Message) (st : WfState) :
    Except (List Char) (List Char) × WfState :=
  match env.gen st.genCount msgs with
  | GenResult.ok resp =>
    (Except.ok resp,
     { st with genCount := st.genCount + 1,
               trace := st.trace ++ [Event.call agent msgs] })
  | GenResult.raise e1 =>
    match env.gen (st.genCount + 1) msgs with
    | GenResult.ok resp =>
      (Except.ok resp,
       { st with lastError := e1,
                 genCount := st.genCount + 2,
                 trace := st.trace ++ [Event.call agent msgs, Event.sleep 5,
                                       Event.call agent msgs] })
    | GenResult.raise e2 =>
      (Except.error e2,
       { st with lastError := e1,
                 genCount := st.genCount + 2,
                 trace := st.trace ++ [Event.call agent msgs, Event.sleep 5,
                                       Event.call agent msgs] })

/--
The `for round_idx in range(3)` loop of `main_workflow`, with `fuel` rounds
remaining and `ridx` the current round index.  When the fuel runs out the
exhaustion line `return {"code": code_snippet or "sorry", "proof":
proof_snippet or "sorry"}` fires.  The final `WfState` is returned alongside
so the trace of the run is observable even when an exception escapes.
-/
def runRounds (env : Env) (pd tmpl : List Char) :
    Nat → Nat → WfState → Except PyError LeanCode × WfState
  | 0, _, st => (Except.ok ⟨pyOr st.code sorryText, pyOr st.proof sorryText⟩, st)
  | fuel + 1, ridx, st =>
    match attemptGen env (roundAgent ridx) (roundMsgs pd tmpl ridx st) st with
    | (Except.error e, st1) => (Except.error (PyError.genError e), st1)
    | (Except.ok resp, st1) =>
      match extractStep st1.code st1.proof resp with
      | Except.error _ => (Except.error PyError.indexError, st1)
      | Except.ok (c, p) =>
        match env.verify st1.verifyCount (fillTemplate tmpl c p) with
        | (true, _) =>
          (Except.ok ⟨c, p⟩,
           { st1 with code := c, proof := p,
                      verifyCount := st1.verifyCount + 1 })
        | (false, diag) =>
          runRounds env pd tmpl fuel (ridx + 1)
            { st1 with code := c, proof := p, lastError := diag,
                       verifyCount := st1.verifyCount + 1 }

/-- The loop state at entry: both fragments and the last error empty. -/
def initState : WfState := ⟨[], [], [], 0, 0, []⟩

/-- `main_workflow(problem_description, task_lean_code)`: three rounds starting
from the empty state. -/
def main_workflow (env : Env) (problem_description task_lean_code : List Char) :
    Except PyError LeanCode × WfState :=
  runRounds env problem_description task_lean_code 3 0 initState

/-- The agents of the generation calls in a trace, in order. -/
def genCallAgents (tr : List Event) : List AgentId :=
  tr.filterMap (fun e =>
    match e with
    | Event.call a _ => some a
    | Event.sleep _ => none)

/-- The usage line printed on a wrong argument count. -/
def usageText : List Char := "Usage: python src/main.py <task_directory>".data

/-- What a finished CLI run produced: the strings written to standard output
(one entry per `print` call, trailing newline included) and the exit status. -/
structure CliResult where
  stdout : List (List Char)
  exitCode : Nat
deriving DecidableEq

/-- Python `print(a, b)`: the two arguments joined by a space, then a newline. -/
def printTwo (a b : List Char) : List Char := a ++ " ".data ++ b ++ "\n".data

/--
The `__main__` block (lines 126-136 of `main.py`): `argv` is `sys.argv`
(program name included), `readTask` models `get_problem_and_code_from_taskpath`
(file contents keyed by the directory argument), and a workflow exception
escapes the process as `Except.error`.
-/
def cliMain (argv : List (List Char)) (readTask : List Char → List Char × List Char)
    (env : Env) : Except PyError CliResult :=
  if argv.length ≠ 2 then Except.ok ⟨[usageText ++ "\n".data], 1⟩
  else
    let task := readTask (argv.getD 1 [])
    match (main_workflow env task.1 task.2).1 with
    | Except.error e => Except.error e
    | Except.ok res =>
      Except.ok ⟨[printTwo "\n=== Generated CODE ===\n".data res.code,
                  printTwo "\n=== Generated PROOF ===\n".data res.proof], 0⟩


/-! ### Lemmas about the string primitives -/

theorem replaceAllFuel_congr (old new : List Char) :
    ∀ m n s, s.length ≤ m → s.length ≤ n →
      replaceAllFuel old new m s = replaceAllFuel old new n s := by
  intro m
  induction m with
  | zero =>
    intro n s hm _
    have hs : s = [] := List.length_eq_zero.mp (Nat.le_zero.mp hm)
    subst hs
    cases n <;> rfl
  | succ m ih =>
    intro n s hm hn
    cases s with
    | nil => cases n <;> rfl
    | cons c rest =>
      cases n with
      | zero => simp at hn
      | succ n =>
        have h1 : rest.length ≤ m := by
          simp only [List.length_cons] at hm
          omega
        have h2 : rest.length ≤ n := by
          simp only [List.length_cons] at hn
          omega
        have hd : (rest.drop (old.length - 1)).length ≤ rest.length := by
          simp [List.length_drop]
        simp only [replaceAllFuel]
        by_cases h : old.isPrefixOf (c :: rest) = true
        · rw [if_pos h, if_pos h,
            ih n (rest.drop (old.length - 1)) (le_trans hd h1) (le_trans hd h2)]
        · rw [if_neg h, if_neg h, ih n rest h1 h2]

theorem replaceAll_of_none (old new : List Char) :
    ∀ n s, s.length ≤ n → splitFirst old s = none →
      replaceAllFuel old new n s = s := by
  intro n
  induction n with
  | zero =>
    intro s hm _
    have hs : s = [] := List.length_eq_zero.mp (Nat.le_zero.mp hm)
    subst hs
    rfl
  | succ n ih =>
    intro s hm hsp
    cases s with
    | nil => rfl
    | cons c rest =>
      simp only [splitFirst] at hsp
      by_cases h : old.isPrefixOf (c :: rest) = true
      · rw [if_pos h] at hsp
        exact absurd hsp (by simp)
      · rw [if_neg h] at hsp
        have hrest : splitFirst old rest = none := by
          cases hr : splitFirst old rest with
          | none => rfl
          | some pr => rw [hr] at hsp; simp at hsp
        have h1 : rest.length ≤ n := by
          simp only [List.length_cons] at hm
          omega
        simp only [replaceAllFuel, if_neg h, ih rest h1 hrest]

theorem splitFirst_none_replaceAll (old new s : List Char)
    (h : splitFirst old s = none) : replaceAll old new s = s :=
  replaceAll_of_none old new s.length s (Nat.le_refl _) h

theorem replaceAll_of_some (old new : List Char) (hne : old ≠ []) :
    ∀ n s pre post, s.length ≤ n → splitFirst old s = some (pre, post) →
      replaceAllFuel old new n s = pre ++ new ++ replaceAll old new post := by
  intro n
  induction n with
  | zero =>
    intro s pre post hm hsp
    have hs : s = [] := List.length_eq_zero.mp (Nat.le_zero.mp hm)
    subst hs
    simp only [splitFirst] at hsp
    rw [if_neg (by cases old with
      | nil => exact absurd rfl hne
      | cons a as => simp [List.isPrefixOf])] at hsp
    exact absurd hsp (by simp)
  | succ n ih =>
    intro s pre post hm hsp
    cases s with
    | nil =>
      simp only [splitFirst] at hsp
      rw [if_neg (by cases old with
        | nil => exact absurd rfl hne
        | cons a as => simp [List.isPrefixOf])] at hsp
      exact absurd hsp (by simp)
    | cons c rest =>
      obtain ⟨k, hk⟩ : ∃ k, old.length = k + 1 := by
        cases old with
        | nil => exact absurd rfl hne
        | cons a as => exact ⟨as.length, rfl⟩
      simp only [splitFirst] at hsp
      by_cases h : old.isPrefixOf (c :: rest) = true
      · rw [if_pos h] at hsp
        have hpre : pre = [] := by
          have := (Option.some.injEq _ _).mp hsp
          exact (congrArg Prod.fst this).symm
        have hpost : post = (c :: rest).drop old.length := by
          have := (Option.some.injEq _ _).mp hsp
          exact (congrArg Prod.snd this).symm
        subst hpre
        have hdrop : (c :: rest).drop old.length = rest.drop k := by
          rw [hk]
          exact List.drop_succ_cons
        have h1 : rest.length ≤ n := by
          simp only [List.length_cons] at hm
          omega
        have hd : (rest.drop (old.length - 1)).length ≤ rest.length := by
          simp [List.length_drop]
        simp only [replaceAllFuel, if_pos h]
        rw [hpost, hdrop]
        have hok : old.length - 1 = k := by omega
        rw [hok]
        unfold replaceAll
        rw [replaceAllFuel_congr old new n (rest.drop k).length (rest.drop k)
          (le_trans (by simp [List.length_drop]) h1) (Nat.le_refl _)]
        simp
      · rw [if_neg h] at hsp
        cases hr : splitFirst old rest with
        | none => rw [hr] at hsp; simp at hsp
        | some pr =>
          rw [hr] at hsp
          have hsp2 : (c :: pr.1, pr.2) = (pre, post) := by simpa using hsp
          have hpre : pre = c :: pr.1 := (congrArg Prod.fst hsp2).symm
          have hpost : post = pr.2 := (congrArg Prod.snd hsp2).symm
          subst hpre
          subst hpost
          have h1 : rest.length ≤ n := by
            simp only [List.length_cons] at hm
            omega
          simp only [replaceAllFuel, if_neg h]
          rw [ih rest pr.1 pr.2 h1 (by rw [hr])]
          simp

theorem splitFirst_some_replaceAll (old new s pre post : List Char) (hne : old ≠ [])
    (h : splitFirst old s = some (pre, post)) :
    replaceAll old new s = pre ++ new ++ replaceAll old new post :=
  replaceAll_of_some old new hne s.length s pre post (Nat.le_refl _) h

theorem dropWhile_prefix_eq {p : Char → Bool} {x y : List Char}
    (hxy : x <+: y) (hy : y.dropWhile p = y) : x.dropWhile p = x := by
  cases x with
  | nil => rfl
  | cons a xs =>
    obtain ⟨u, hu⟩ := hxy
    subst hu
    rw [List.cons_append] at hy
    rw [List.dropWhile_cons] at hy ⊢
    by_cases h : p a
    · exfalso
      rw [if_pos h] at hy
      have hle : (List.dropWhile p (xs ++ u)).length ≤ (xs ++ u).length :=
        (List.dropWhile_suffix p).sublist.length_le
      rw [hy] at hle
      simp at hle
    · rw [if_neg h]

theorem strip_eq_rdw (s : List Char) :
    strip s = List.rdropWhile pyIsSpace (List.dropWhile pyIsSpace s) := rfl

theorem strip_idem (s : List Char) : strip (strip s) = strip s := by
  have hpre : strip s <+: List.dropWhile pyIsSpace s := by
    rw [strip_eq_rdw]
    exact List.rdropWhile_prefix _ _
  have hdw : List.dropWhile pyIsSpace (List.dropWhile pyIsSpace s)
      = List.dropWhile pyIsSpace s := List.dropWhile_idempotent _ _
  have h1 : List.dropWhile pyIsSpace (strip s) = strip s := dropWhile_prefix_eq hpre hdw
  calc strip (strip s)
      = List.rdropWhile pyIsSpace (List.dropWhile pyIsSpace (strip s)) := strip_eq_rdw _
    _ = List.rdropWhile pyIsSpace (strip s) := by rw [h1]
    _ = List.rdropWhile pyIsSpace
          (List.rdropWhile pyIsSpace (List.dropWhile pyIsSpace s)) := by rw [strip_eq_rdw]
    _ = List.rdropWhile pyIsSpace (List.dropWhile pyIsSpace s) :=
        List.rdropWhile_idempotent _ _
    _ = strip s := (strip_eq_rdw _).symm

/-! ### Lemmas about the extraction step and the loop -/

theorem extractStep_markers_ok (c0 p0 r t1 t2 : List Char)
    (h1 : pyIndex1 codeStartMarker r = some t1)
    (h2 : pyIndex1 proofStartMarker r = some t2) :
    extractStep c0 p0 r = Except.ok (strip (pyIndex0 codeEndMarker t1),
                                     strip (pyIndex0 proofEndMarker t2)) := by
  unfold extractStep
  rw [h1, h2]

theorem fallbackExtract_stripped (c0 p0 r c p : List Char)
    (hc0 : strip c0 = c0) (hp0 : strip p0 = p0)
    (h : fallbackExtract c0 p0 r = Except.ok (c, p)) :
    strip c = c ∧ strip p = p := by
  unfold fallbackExtract at h
  split at h
  · simp only [Except.ok.injEq, Prod.mk.injEq] at h
    obtain ⟨hc, hp⟩ := h
    rw [← hc, ← hp]
    exact ⟨hc0, hp0⟩
  · split at h
    · simp only [Except.ok.injEq, Prod.mk.injEq] at h
      obtain ⟨hc, hp⟩ := h
      rw [← hc, ← hp]
      exact ⟨strip_idem _, strip_idem _⟩
    · exact absurd h (by simp)

theorem extractStep_stripped (c0 p0 r c p : List Char)
    (hc0 : strip c0 = c0) (hp0 : strip p0 = p0)
    (h : extractStep c0 p0 r = Except.ok (c, p)) :
    strip c = c ∧ strip p = p := by
  unfold extractStep at h
  split at h
  · split at h
    · simp only [Except.ok.injEq, Prod.mk.injEq] at h
      obtain ⟨hc, hp⟩ := h
      rw [← hc, ← hp]
      exact ⟨strip_idem _, strip_idem _⟩
    · exact fallbackExtract_stripped _ p0 r c p (strip_idem _) hp0 h
  · exact fallbackExtract_stripped c0 p0 r c p hc0 hp0 h

theorem attemptGen_preserves (env : Env) (a : AgentId) (m : List Message) (st : WfState) :
    ((attemptGen env a m st).2).code = st.code ∧
    ((attemptGen env a m st).2).proof = st.proof ∧
    ((attemptGen env a m st).2).verifyCount = st.verifyCount := by
  unfold attemptGen
  cases env.gen st.genCount m with
  | ok resp => exact ⟨rfl, rfl, rfl⟩
  | raise e1 =>
    cases env.gen (st.genCount + 1) m with
    | ok resp => exact ⟨rfl, rfl, rfl⟩
    | raise e2 => exact ⟨rfl, rfl, rfl⟩

theorem attemptGen_firstTry (env : Env) (a : AgentId) (m : List Message) (st : WfState)
    (r : List Char) (hgen : env.gen st.genCount m = GenResult.ok r) :
    attemptGen env a m st =
      (Except.ok r, { st with genCount := st.genCount + 1,
                              trace := st.trace ++ [Event.call a m] }) := by
  unfold attemptGen
  rw [hgen]

theorem runRounds_fail_step (env : Env) (pd tmpl : List Char) (fuel ridx : Nat)
    (st : WfState) (r c p diag : List Char)
    (hgen : env.gen st.genCount (roundMsgs pd tmpl ridx st) = GenResult.ok r)
    (hex : extractStep st.code st.proof r = Except.ok (c, p))
    (hver : env.verify st.verifyCount (fillTemplate tmpl c p) = (false, diag)) :
    runRounds env pd tmpl (fuel + 1) ridx st =
      runRounds env pd tmpl fuel (ridx + 1)
        { code := c, proof := p, lastError := diag,
          genCount := st.genCount + 1, verifyCount := st.verifyCount + 1,
          trace := st.trace ++ [Event.call (roundAgent ridx) (roundMsgs pd tmpl ridx st)] } := by
  simp only [runRounds]
  rw [attemptGen_firstTry env (roundAgent ridx) (roundMsgs pd tmpl ridx st) st r hgen]
  dsimp only
  simp only [hex]
  simp only [hver]

theorem runRounds_success_step (env : Env) (pd tmpl : List Char) (fuel ridx : Nat)
    (st : WfState) (r c p diag : List Char)
    (hgen : env.gen st.genCount (roundMsgs pd tmpl ridx st) = GenResult.ok r)
    (hex : extractStep st.code st.proof r = Except.ok (c, p))
    (hver : env.verify st.verifyCount (fillTemplate tmpl c p) = (true, diag)) :
    runRounds env pd tmpl (fuel + 1) ridx st =
      (Except.ok ⟨c, p⟩,
       { code := c, proof := p, lastError := st.lastError,
         genCount := st.genCount + 1, verifyCount := st.verifyCount + 1,
         trace := st.trace ++ [Event.call (roundAgent ridx) (roundMsgs pd tmpl ridx st)] }) := by
  simp only [runRounds]
  rw [attemptGen_firstTry env (roundAgent ridx) (roundMsgs pd tmpl ridx st) st r hgen]
  dsimp only
  simp only [hex]
  simp only [hver]

theorem genCallAgents_append (tr1 tr2 : List Event) :
    genCallAgents (tr1 ++ tr2) = genCallAgents tr1 ++ genCallAgents tr2 := by
  unfold genCallAgents
  exact List.filterMap_append _ _ _

theorem runRounds_exhaust (env : Env) (pd tmpl : List Char)
    (hver : ∀ k d, (env.verify k d).1 = false) :
    ∀ fuel ridx st res stF,
      runRounds env pd tmpl fuel ridx st = (Except.ok res, stF) →
      res = ⟨pyOr stF.code sorryText, pyOr stF.proof sorryText⟩ := by
  intro fuel
  induction fuel with
  | zero =>
    intro ridx st res stF hrun
    simp only [runRounds, Prod.mk.injEq, Except.ok.injEq] at hrun
    obtain ⟨h1, h2⟩ := hrun
    subst h2
    exact h1.symm
  | succ fuel ih =>
    intro ridx st res stF hrun
    simp only [runRounds] at hrun
    rcases hg : attemptGen env (roundAgent ridx) (roundMsgs pd tmpl ridx st) st with ⟨er, st1⟩
    simp only [hg] at hrun
    cases er with
    | error e => exact absurd hrun (by simp)
    | ok resp =>
      cases hex : extractStep st1.code st1.proof resp with
      | error u => simp only [hex] at hrun; exact absurd hrun (by simp)
      | ok cp =>
        obtain ⟨c, p⟩ := cp
        simp only [hex] at hrun
        rcases hv : env.verify st1.verifyCount (fillTemplate tmpl c p) with ⟨b, d⟩
        have hb : b = false := by
          have hx := hver st1.verifyCount (fillTemplate tmpl c p)
          rw [hv] at hx
          exact hx
        subst hb
        simp only [hv] at hrun
        exact ih _ _ res stF hrun

theorem runRounds_stripped (env : Env) (pd tmpl : List Char) :
    ∀ fuel ridx st res stF,
      strip st.code = st.code → strip st.proof = st.proof →
      runRounds env pd tmpl fuel ridx st = (Except.ok res, stF) →
      strip res.code = res.code ∧ strip res.proof = res.proof := by
  intro fuel
  induction fuel with
  | zero =>
    intro ridx st res stF hc hp hrun
    simp only [runRounds, Prod.mk.injEq, Except.ok.injEq] at hrun
    obtain ⟨h1, h2⟩ := hrun
    rw [← h1]
    constructor
    · show strip (pyOr st.code sorryText) = pyOr st.code sorryText
      unfold pyOr
      by_cases hse : st.code = []
      · rw [if_pos hse]
        decide
      · rw [if_neg hse]
        exact hc
    · show strip (pyOr st.proof sorryText) = pyOr st.proof sorryText
      unfold pyOr
      by_cases hse : st.proof = []
      · rw [if_pos hse]
        decide
      · rw [if_neg hse]
        exact hp
  | succ fuel ih =>
    intro ridx st res stF hc hp hrun
    simp only [runRounds] at hrun
    rcases hg : attemptGen env (roundAgent ridx) (roundMsgs pd tmpl ridx st) st with ⟨er, st1⟩
    have hpres := attemptGen_preserves env (roundAgent ridx) (roundMsgs pd tmpl ridx st) st
    simp only [hg] at hpres
    obtain ⟨hc1, hp1, _⟩ := hpres
    simp only [hg] at hrun
    cases er with
    | error e => exact absurd hrun (by simp)
    | ok resp =>
      cases hex : extractStep st1.code st1.proof resp with
      | error u => simp only [hex] at hrun; exact absurd hrun (by simp)
      | ok cp =>
        obtain ⟨c, p⟩ := cp
        simp only [hex] at hrun
        have hcp : strip c = c ∧ strip p = p :=
          extractStep_stripped st1.code st1.proof resp c p
            (by rw [hc1]; exact hc) (by rw [hp1]; exact hp) hex
        rcases hv : env.verify st1.verifyCount (fillTemplate tmpl c p) with ⟨b, d⟩
        simp only [hv] at hrun
        cases b with
        | true =>
          simp only [Prod.mk.injEq, Except.ok.injEq] at hrun
          obtain ⟨h1, h2⟩ := hrun
          rw [← h1]
          exact hcp
        | false => exact ih (ridx + 1) _ res stF hcp.1 hcp.2 hrun

/-! ### Claims -/

/-- C1 counterexample: on the response text `{{code}}X` the marker extraction
fails, the fallback enters its branch (the response contains `{{code}}`), and
the access to `parts[1].split("{{proof}}\n")[1]` raises an uncaught
`IndexError`, so extraction does raise and control never reaches the
template-substitution step. -/
theorem C1_counterexample :
    extractStep [] [] "\x7b\x7bcode\x7d\x7dX".data = Except.error () := by
  decide

/-- C1 (amended): the fragment-extraction step never raises, except in exactly
one case: marker-based extraction fails (a start marker is absent), the
response contains the literal `{{code}}` token, and the part between the first
and second `{{code}}` does not contain `{{proof}}` followed by a newline; in
that case an `IndexError` propagates.  In every other case control reaches the
template-substitution step with both fragments recovered or left unchanged. -/
theorem C1_extraction_ok_iff (c0 p0 r : List Char) :
    (∃ cp, extractStep c0 p0 r = Except.ok cp) ↔
    ¬ ((pyIndex1 codeStartMarker r = none ∨ pyIndex1 proofStartMarker r = none) ∧
       (∃ part1, pyIndex1 codeToken r = some part1 ∧
                 pyIndex1 proofNlToken part1 = none)) := by
  unfold extractStep fallbackExtract
  cases h1 : pyIndex1 codeStartMarker r with
  | some seg =>
    cases h2 : pyIndex1 proofStartMarker r with
    | some seg2 => simp
    | none =>
      cases h3 : pyIndex1 codeToken r with
      | none => simp
      | some part1 =>
        cases h4 : pyIndex1 proofNlToken part1 with
        | some seg3 => simp [h4]
        | none => simp [h4]
  | none =>
    cases h3 : pyIndex1 codeToken r with
    | none => simp
    | some part1 =>
      cases h4 : pyIndex1 proofNlToken part1 with
      | some seg3 => simp [h4]
      | none => simp [h4]

/-- C2 counterexample: on a response containing only the code markers, the
marker extraction reassigns the code fragment to `X` before raising on the
missing proof marker, and the fallback then fails (no `{{code}}` in the
response); the code fragment does not keep its previous (empty) value. -/
theorem C2_counterexample :
    extractStep [] [] "-- << CODE START >>X-- << CODE END >>".data
        = Except.ok ("X".data, []) ∧ "X".data ≠ ([] : List Char) := by
  constructor
  · decide
  · decide

/-- C2 (amended): if marker-based extraction fails and the fallback split also
fails (the response does not contain `{{code}}`), the proof fragment keeps its
previous value, and the code fragment keeps its previous value unless the code
start marker is present in the response, in which case it has already been
reassigned to the trimmed text delimited by the code markers. -/
theorem C2_fallback_fail_state (c0 p0 r : List Char)
    (hm : pyIndex1 codeStartMarker r = none ∨ pyIndex1 proofStartMarker r = none)
    (hf : pyIndex1 codeToken r = none) :
    extractStep c0 p0 r = Except.ok
      ((match pyIndex1 codeStartMarker r with
        | some seg => strip (pyIndex0 codeEndMarker seg)
        | none => c0), p0) := by
  unfold extractStep fallbackExtract
  cases h1 : pyIndex1 codeStartMarker r with
  | none => simp only [hf]
  | some seg =>
    have h2 : pyIndex1 proofStartMarker r = none := by
      cases hm with
      | inl h => rw [h1] at h; exact absurd h (by simp)
      | inr h => exact h
    simp only [h2, hf]

/-- C2 witness: on a response with no markers and no tokens, extraction leaves
both fragments untouched. -/
theorem C2_fallback_fail_state_witness :
    extractStep "a".data "b".data "hello".data = Except.ok ("a".data, "b".data) :=
  (C2_fallback_fail_state "a".data "b".data "hello".data
    (Or.inl (by decide)) (by decide)).trans (by decide)

/-- C3 counterexample: a template containing the `{{code}}` placeholder twice
has both occurrences replaced (none survives in the filled document), so the
substitution step does not replace the token at most once. -/
theorem C3_counterexample :
    splitFirst codeToken "\x7b\x7bcode\x7d\x7d \x7b\x7bcode\x7d\x7d".data
        = some ([], " \x7b\x7bcode\x7d\x7d".data) ∧
    splitFirst codeToken " \x7b\x7bcode\x7d\x7d".data = some (" ".data, []) ∧
    fillTemplate "\x7b\x7bcode\x7d\x7d \x7b\x7bcode\x7d\x7d".data "A".data "B".data
        = "A A".data := by
  refine ⟨by decide, by decide, by decide⟩

/-- C3 (amended): the substitution step replaces every occurrence of each
placeholder token (Python `str.replace` replaces all non-overlapping
occurrences); in particular a template with two `{{code}}` occurrences has the
code fragment substituted at both, and replacement continues in the remainder.
When the template contains each token at most once, each is replaced at most
once. -/
theorem C3_replaces_every_occurrence (tmpl c p pre mid rest : List Char)
    (h1 : splitFirst codeToken tmpl = some (pre, mid ++ codeToken ++ rest))
    (h2 : splitFirst codeToken (mid ++ codeToken ++ rest) = some (mid, rest)) :
    fillTemplate tmpl c p =
      replaceAll proofToken p (pre ++ c ++ (mid ++ c ++ replaceAll codeToken c rest)) := by
  unfold fillTemplate
  rw [splitFirst_some_replaceAll codeToken c tmpl pre (mid ++ codeToken ++ rest)
      (by decide) h1,
    splitFirst_some_replaceAll codeToken c (mid ++ codeToken ++ rest) mid rest
      (by decide) h2]

/-- C3 witness: concrete template `{{code}}!{{code}}` with two occurrences. -/
theorem C3_replaces_every_occurrence_witness :
    fillTemplate "\x7b\x7bcode\x7d\x7d!\x7b\x7bcode\x7d\x7d".data "A".data "B".data =
      replaceAll proofToken "B".data
        ([] ++ "A".data ++ ("!".data ++ "A".data ++ replaceAll codeToken "A".data [])) :=
  C3_replaces_every_occurrence "\x7b\x7bcode\x7d\x7d!\x7b\x7bcode\x7d\x7d".data
    "A".data "B".data [] "!".data [] (by decide) (by decide)

/-- C9: the `{{code}}` replacement runs before the `{{proof}}` replacement on
the same string, so when the extracted code fragment itself contains the
literal `{{proof}}` token, the proof fragment is substituted inside the code
occurrence of the code fragment in the filled document: substitution is not
capture-avoiding. -/
theorem C9_not_capture_avoiding (c1 c2 p : List Char)
    (h : splitFirst proofToken (c1 ++ proofToken ++ c2) = some (c1, c2)) :
    fillTemplate codeToken (c1 ++ proofToken ++ c2) p
      = c1 ++ p ++ replaceAll proofToken p c2 := by
  unfold fillTemplate
  rw [splitFirst_some_replaceAll codeToken (c1 ++ proofToken ++ c2) codeToken [] []
      (by decide) (by decide)]
  simp only [List.nil_append, List.append_nil]
  rw [show replaceAll codeToken (c1 ++ proofToken ++ c2) [] = [] from rfl]
  simp only [List.append_nil]
  rw [splitFirst_some_replaceAll proofToken p (c1 ++ proofToken ++ c2) c1 c2
      (by decide) h]

/-- C9 witness: template `{{code}}`, code fragment `a{{proof}}b`. -/
theorem C9_not_capture_avoiding_witness :
    fillTemplate codeToken ("a".data ++ proofToken ++ "b".data) "P".data
      = "a".data ++ "P".data ++ replaceAll proofToken "P".data "b".data :=
  C9_not_capture_avoiding "a".data "b".data "P".data (by decide)

/-- C7: in any round with fuel remaining, if the generation call raises, the
loop records the failure text, sleeps exactly 5 seconds, and retries the same
invocation with the same messages exactly once; if the retry also raises, that
error propagates uncaught and the loop terminates abnormally, with no third
call and no further fallback. -/
theorem C7_retry_then_propagate (env : Env) (pd tmpl : List Char) (fuel ridx : Nat)
    (st : WfState) (e1 e2 : List Char)
    (h1 : env.gen st.genCount (roundMsgs pd tmpl ridx st) = GenResult.raise e1)
    (h2 : env.gen (st.genCount + 1) (roundMsgs pd tmpl ridx st) = GenResult.raise e2) :
    runRounds env pd tmpl (fuel + 1) ridx st =
      (Except.error (PyError.genError e2),
       { st with lastError := e1,
                 genCount := st.genCount + 2,
                 trace := st.trace ++
                   [Event.call (roundAgent ridx) (roundMsgs pd tmpl ridx st),
                    Event.sleep 5,
                    Event.call (roundAgent ridx) (roundMsgs pd tmpl ridx st)] }) := by
  simp only [runRounds, attemptGen, h1, h2]

/-- C7 witness: an environment whose generation capability always raises makes
the whole run abort with the error of the retry after one sleep. -/
theorem C7_retry_then_propagate_witness :
    (runRounds ⟨fun _ _ => GenResult.raise "x".data, fun _ _ => (true, [])⟩
        [] [] 3 0 initState).1
      = Except.error (PyError.genError "x".data) :=
  congrArg Prod.fst
    (C7_retry_then_propagate ⟨fun _ _ => GenResult.raise "x".data, fun _ _ => (true, [])⟩
      [] [] 2 0 initState "x".data "x".data rfl rfl)

/-- C8: the command-line entry point prints the usage line and exits with
status 1 when the argument count differs from one task-directory argument;
otherwise, when the workflow returns, it prints the produced code and proof
fragments to standard output and exits normally. -/
theorem C8_cli (argv : List (List Char)) (readTask : List Char → List Char × List Char)
    (env : Env) :
    (argv.length ≠ 2 → cliMain argv readTask env = Except.ok ⟨[usageText ++ "\n".data], 1⟩) ∧
    (∀ res,
      argv.length = 2 →
      (main_workflow env (readTask (argv.getD 1 [])).1 (readTask (argv.getD 1 [])).2).1
        = Except.ok res →
      cliMain argv readTask env = Except.ok
        ⟨[printTwo "\n=== Generated CODE ===\n".data res.code,
          printTwo "\n=== Generated PROOF ===\n".data res.proof], 0⟩) := by
  constructor
  · intro h
    unfold cliMain
    rw [if_pos h]
  · intro res hlen hres
    unfold cliMain
    rw [if_neg (fun hk => hk hlen)]
    simp only [hres]

/-- C8 witness: invoking with no argument (argument count 1) yields the usage
message and exit status 1. -/
theorem C8_cli_witness :
    cliMain [[]] (fun _ => ([], []))
        ⟨fun _ _ => GenResult.raise [], fun _ _ => (false, [])⟩
      = Except.ok ⟨[usageText ++ "\n".data], 1⟩ :=
  (C8_cli [[]] (fun _ => ([], []))
    ⟨fun _ _ => GenResult.raise [], fun _ _ => (false, [])⟩).1 (by decide)

/-- C5: if the round-0 response carries well-formed paired code and proof
markers (stated operationally: the first code start marker is followed by a
unique segment containing a code end marker, likewise for the proof markers)
and the filled template verifies, the workflow returns on round 0 with exactly
the marker-delimited substrings of the response, modified only by whitespace
trimming; exactly one generation call (to the primary agent) is made. -/
theorem C5_round0_markers_success (env : Env) (pd tmpl : List Char)
    (r a t1 b b2 cpre t2 d d2 diag : List Char)
    (hgen : env.gen 0 (roundMsgs pd tmpl 0 initState) = GenResult.ok r)
    (h1 : splitFirst codeStartMarker r = some (a, t1))
    (h2 : splitFirst codeStartMarker t1 = none)
    (h3 : splitFirst codeEndMarker t1 = some (b, b2))
    (h4 : splitFirst proofStartMarker r = some (cpre, t2))
    (h5 : splitFirst proofStartMarker t2 = none)
    (h6 : splitFirst proofEndMarker t2 = some (d, d2))
    (hver : env.verify 0 (fillTemplate tmpl (strip b) (strip d)) = (true, diag)) :
    (main_workflow env pd tmpl).1 = Except.ok ⟨strip b, strip d⟩ ∧
    genCallAgents (main_workflow env pd tmpl).2.trace = [AgentId.llm] := by
  have hi1 : pyIndex1 codeStartMarker r = some t1 := by
    unfold pyIndex1
    simp only [h1, h2]
  have hi2 : pyIndex1 proofStartMarker r = some t2 := by
    unfold pyIndex1
    simp only [h4, h5]
  have hb : pyIndex0 codeEndMarker t1 = b := by
    unfold pyIndex0
    simp only [h3]
  have hd : pyIndex0 proofEndMarker t2 = d := by
    unfold pyIndex0
    simp only [h6]
  have hex : extractStep initState.code initState.proof r
      = Except.ok (strip b, strip d) := by
    rw [extractStep_markers_ok initState.code initState.proof r t1 t2 hi1 hi2, hb, hd]
  have hrun := runRounds_success_step env pd tmpl 2 0 initState r (strip b) (strip d)
      diag hgen hex hver
  constructor
  · exact congrArg Prod.fst hrun
  · refine (congrArg (fun x => genCallAgents x.2.trace) hrun).trans ?_
    simp [genCallAgents, roundAgent, initState]

/-- C5 witness: a concrete marker-delimited response whose fragments are
returned trimmed after a single primary-agent call. -/
theorem C5_round0_markers_success_witness :
    (main_workflow
        ⟨fun _ _ => GenResult.ok
          "-- << CODE START >> impl -- << CODE END >>-- << PROOF START >> pf -- << PROOF END >>".data,
         fun _ _ => (true, [])⟩ [] []).1
      = Except.ok ⟨"impl".data, "pf".data⟩ ∧
    genCallAgents (main_workflow
        ⟨fun _ _ => GenResult.ok
          "-- << CODE START >> impl -- << CODE END >>-- << PROOF START >> pf -- << PROOF END >>".data,
         fun _ _ => (true, [])⟩ [] []).2.trace
      = [AgentId.llm] := by
  have h := C5_round0_markers_success
    ⟨fun _ _ => GenResult.ok
      "-- << CODE START >> impl -- << CODE END >>-- << PROOF START >> pf -- << PROOF END >>".data,
     fun _ _ => (true, [])⟩ [] []
    "-- << CODE START >> impl -- << CODE END >>-- << PROOF START >> pf -- << PROOF END >>".data
    []
    " impl -- << CODE END >>-- << PROOF START >> pf -- << PROOF END >>".data
    " impl ".data
    "-- << PROOF START >> pf -- << PROOF END >>".data
    "-- << CODE START >> impl -- << CODE END >>".data
    " pf -- << PROOF END >>".data
    " pf ".data
    [] []
    rfl (by decide) (by decide) (by decide) (by decide) (by decide) (by decide) rfl
  exact ⟨h.1.trans (by decide), h.2⟩

/-- C6: if no generation call raises (each of the three calls answers on its
first try) and verification fails on rounds 0 and 1 but succeeds on round 2,
and extraction never raises, the workflow performs exactly three generation
invocations — one on the primary agent and two on the refinement agent, in
that order — and returns the fragments extracted in round 2. -/
theorem C6_three_rounds (env : Env) (pd tmpl r0 r1 r2 : List Char)
    (hg0 : ∀ m, env.gen 0 m = GenResult.ok r0)
    (hg1 : ∀ m, env.gen 1 m = GenResult.ok r1)
    (hg2 : ∀ m, env.gen 2 m = GenResult.ok r2)
    (hv0 : ∀ d, (env.verify 0 d).1 = false)
    (hv1 : ∀ d, (env.verify 1 d).1 = false)
    (hv2 : ∀ d, (env.verify 2 d).1 = true)
    (he0 : ∀ a b, ∃ cp, extractStep a b r0 = Except.ok cp)
    (he1 : ∀ a b, ∃ cp, extractStep a b r1 = Except.ok cp)
    (he2 : ∀ a b, ∃ cp, extractStep a b r2 = Except.ok cp) :
    ∃ c0 p0 c1 p1 c2 p2,
      extractStep [] [] r0 = Except.ok (c0, p0) ∧
      extractStep c0 p0 r1 = Except.ok (c1, p1) ∧
      extractStep c1 p1 r2 = Except.ok (c2, p2) ∧
      (main_workflow env pd tmpl).1 = Except.ok ⟨c2, p2⟩ ∧
      genCallAgents (main_workflow env pd tmpl).2.trace
        = [AgentId.llm, AgentId.reasoner, AgentId.reasoner] := by
  obtain ⟨⟨c0, p0⟩, he0x⟩ := he0 [] []
  rcases hvv0 : env.verify 0 (fillTemplate tmpl c0 p0) with ⟨b0, d0⟩
  have hb0 : b0 = false := by
    have hx := hv0 (fillTemplate tmpl c0 p0)
    rw [hvv0] at hx
    exact hx
  subst hb0
  have hstep0 := runRounds_fail_step env pd tmpl 2 0 initState r0 c0 p0 d0
      (hg0 _) he0x hvv0
  obtain ⟨⟨c1, p1⟩, he1x⟩ := he1 c0 p0
  rcases hvv1 : env.verify 1 (fillTemplate tmpl c1 p1) with ⟨b1, d1⟩
  have hb1 : b1 = false := by
    have hx := hv1 (fillTemplate tmpl c1 p1)
    rw [hvv1] at hx
    exact hx
  subst hb1
  have hstep1 := runRounds_fail_step env pd tmpl 1 1
      ⟨c0, p0, d0, 1, 1, [Event.call AgentId.llm (roundMsgs pd tmpl 0 initState)]⟩
      r1 c1 p1 d1 (hg1 _) he1x hvv1
  obtain ⟨⟨c2, p2⟩, he2x⟩ := he2 c1 p1
  rcases hvv2 : env.verify 2 (fillTemplate tmpl c2 p2) with ⟨b2, d2⟩
  have hb2 : b2 = true := by
    have hx := hv2 (fillTemplate tmpl c2 p2)
    rw [hvv2] at hx
    exact hx
  subst hb2
  have hstep2 := runRounds_success_step env pd tmpl 0 2
      ⟨c1, p1, d1, 2, 2,
       [Event.call AgentId.llm (roundMsgs pd tmpl 0 initState),
        Event.call AgentId.reasoner (roundMsgs pd tmpl 1
          ⟨c0, p0, d0, 1, 1, [Event.call AgentId.llm (roundMsgs pd tmpl 0 initState)]⟩)]⟩
      r2 c2 p2 d2 (hg2 _) he2x hvv2
  have hrun := (hstep0.trans hstep1).trans hstep2
  refine ⟨c0, p0, c1, p1, c2, p2, he0x, he1x, he2x, ?_, ?_⟩
  · exact congrArg Prod.fst hrun
  · refine (congrArg (fun x => genCallAgents x.2.trace) hrun).trans ?_
    simp [genCallAgents, roundAgent]

/-- C6 witness: a constant marker-bearing response with a verifier that
succeeds only on its third call. -/
theorem C6_three_rounds_witness :
    ∃ c0 p0 c1 p1 c2 p2,
      extractStep [] []
        "-- << CODE START >>a-- << CODE END >>-- << PROOF START >>b-- << PROOF END >>".data
        = Except.ok (c0, p0) ∧
      extractStep c0 p0
        "-- << CODE START >>a-- << CODE END >>-- << PROOF START >>b-- << PROOF END >>".data
        = Except.ok (c1, p1) ∧
      extractStep c1 p1
        "-- << CODE START >>a-- << CODE END >>-- << PROOF START >>b-- << PROOF END >>".data
        = Except.ok (c2, p2) ∧
      (main_workflow
        ⟨fun _ _ => GenResult.ok
          "-- << CODE START >>a-- << CODE END >>-- << PROOF START >>b-- << PROOF END >>".data,
         fun k _ => (k == 2, "e".data)⟩ [] []).1 = Except.ok ⟨c2, p2⟩ ∧
      genCallAgents (main_workflow
        ⟨fun _ _ => GenResult.ok
          "-- << CODE START >>a-- << CODE END >>-- << PROOF START >>b-- << PROOF END >>".data,
         fun k _ => (k == 2, "e".data)⟩ [] []).2.trace
        = [AgentId.llm, AgentId.reasoner, AgentId.reasoner] :=
  C6_three_rounds
    ⟨fun _ _ => GenResult.ok
      "-- << CODE START >>a-- << CODE END >>-- << PROOF START >>b-- << PROOF END >>".data,
     fun k _ => (k == 2, "e".data)⟩ [] []
    "-- << CODE START >>a-- << CODE END >>-- << PROOF START >>b-- << PROOF END >>".data
    "-- << CODE START >>a-- << CODE END >>-- << PROOF START >>b-- << PROOF END >>".data
    "-- << CODE START >>a-- << CODE END >>-- << PROOF START >>b-- << PROOF END >>".data
    (fun _ => rfl) (fun _ => rfl) (fun _ => rfl)
    (fun _ => rfl) (fun _ => rfl) (fun _ => rfl)
    (fun a b => ⟨_, extractStep_markers_ok a b
      "-- << CODE START >>a-- << CODE END >>-- << PROOF START >>b-- << PROOF END >>".data
      "a-- << CODE END >>-- << PROOF START >>b-- << PROOF END >>".data
      "b-- << PROOF END >>".data (by decide) (by decide)⟩)
    (fun a b => ⟨_, extractStep_markers_ok a b
      "-- << CODE START >>a-- << CODE END >>-- << PROOF START >>b-- << PROOF END >>".data
      "a-- << CODE END >>-- << PROOF START >>b-- << PROOF END >>".data
      "b-- << PROOF END >>".data (by decide) (by decide)⟩)
    (fun a b => ⟨_, extractStep_markers_ok a b
      "-- << CODE START >>a-- << CODE END >>-- << PROOF START >>b-- << PROOF END >>".data
      "a-- << CODE END >>-- << PROOF START >>b-- << PROOF END >>".data
      "b-- << PROOF END >>".data (by decide) (by decide)⟩)

/-- C4 counterexample: the round responses carry well-formed markers around a
whitespace-only code block, so the extraction of each round succeeds and yields the
empty code fragment; the verifier always fails; after three rounds the
workflow nevertheless returns the literal `"sorry"` for the code (Python
`code_snippet or "sorry"` tests emptiness, not extraction success), so "sorry"
is not returned exactly when the fragment was never successfully extracted. -/
theorem C4_counterexample :
    extractStep [] []
      "-- << CODE START >> -- << CODE END >>-- << PROOF START >>pf-- << PROOF END >>".data
      = Except.ok ([], "pf".data) ∧
    (main_workflow
      ⟨fun _ _ => GenResult.ok
        "-- << CODE START >> -- << CODE END >>-- << PROOF START >>pf-- << PROOF END >>".data,
       fun _ _ => (false, "e".data)⟩ [] []).1
      = Except.ok ⟨sorryText, "pf".data⟩ := by
  constructor
  · decide
  · decide

/-- C4 (amended): if verification never succeeds and no error propagates, the
returned `code` and `proof` are each either the fragment extracted last or the
literal `"sorry"`, and `"sorry"` is returned for a fragment exactly when the
final value of that fragment is the empty string (it was never extracted, or
every extraction of it produced whitespace-only text) — or, degenerately, when
the fragment itself is the text `sorry`. -/
theorem C4_exhaustion_result (env : Env) (pd tmpl : List Char) (res : LeanCode)
    (hver : ∀ k d, (env.verify k d).1 = false)
    (hrun : (main_workflow env pd tmpl).1 = Except.ok res) :
    res.code = pyOr (main_workflow env pd tmpl).2.code sorryText ∧
    res.proof = pyOr (main_workflow env pd tmpl).2.proof sorryText ∧
    (res.code = sorryText ↔
      (main_workflow env pd tmpl).2.code = [] ∨
      (main_workflow env pd tmpl).2.code = sorryText) ∧
    (res.proof = sorryText ↔
      (main_workflow env pd tmpl).2.proof = [] ∨
      (main_workflow env pd tmpl).2.proof = sorryText) := by
  rcases hr : main_workflow env pd tmpl with ⟨er, stF⟩
  rw [hr] at hrun
  dsimp only at hrun ⊢
  subst hrun
  have hres := runRounds_exhaust env pd tmpl hver 3 0 initState res stF hr
  subst hres
  refine ⟨rfl, rfl, ?_, ?_⟩
  · show pyOr stF.code sorryText = sorryText ↔ _
    unfold pyOr
    by_cases h : stF.code = []
    · rw [if_pos h]
      simp [h]
    · rw [if_neg h]
      constructor
      · intro hx
        exact Or.inr hx
      · intro hx
        cases hx with
        | inl hx => exact absurd hx h
        | inr hx => exact hx
  · show pyOr stF.proof sorryText = sorryText ↔ _
    unfold pyOr
    by_cases h : stF.proof = []
    · rw [if_pos h]
      simp [h]
    · rw [if_neg h]
      constructor
      · intro hx
        exact Or.inr hx
      · intro hx
        cases hx with
        | inl hx => exact absurd hx h
        | inr hx => exact hx

/-- C4 witness: three failed rounds with nonempty extracted fragments return
those fragments, not `"sorry"`. -/
theorem C4_exhaustion_result_witness :
    ("a".data : List Char) = pyOr (main_workflow
        ⟨fun _ _ => GenResult.ok
          "-- << CODE START >>a-- << CODE END >>-- << PROOF START >>b-- << PROOF END >>".data,
         fun _ _ => (false, "e".data)⟩ [] []).2.code sorryText ∧
    ("b".data : List Char) = pyOr (main_workflow
        ⟨fun _ _ => GenResult.ok
          "-- << CODE START >>a-- << CODE END >>-- << PROOF START >>b-- << PROOF END >>".data,
         fun _ _ => (false, "e".data)⟩ [] []).2.proof sorryText ∧
    (("a".data : List Char) = sorryText ↔
      (main_workflow
        ⟨fun _ _ => GenResult.ok
          "-- << CODE START >>a-- << CODE END >>-- << PROOF START >>b-- << PROOF END >>".data,
         fun _ _ => (false, "e".data)⟩ [] []).2.code = [] ∨
      (main_workflow
        ⟨fun _ _ => GenResult.ok
          "-- << CODE START >>a-- << CODE END >>-- << PROOF START >>b-- << PROOF END >>".data,
         fun _ _ => (false, "e".data)⟩ [] []).2.code = sorryText) ∧
    (("b".data : List Char) = sorryText ↔
      (main_workflow
        ⟨fun _ _ => GenResult.ok
          "-- << CODE START >>a-- << CODE END >>-- << PROOF START >>b-- << PROOF END >>".data,
         fun _ _ => (false, "e".data)⟩ [] []).2.proof = [] ∨
      (main_workflow
        ⟨fun _ _ => GenResult.ok
          "-- << CODE START >>a-- << CODE END >>-- << PROOF START >>b-- << PROOF END >>".data,
         fun _ _ => (false, "e".data)⟩ [] []).2.proof = sorryText) :=
  C4_exhaustion_result
    ⟨fun _ _ => GenResult.ok
      "-- << CODE START >>a-- << CODE END >>-- << PROOF START >>b-- << PROOF END >>".data,
     fun _ _ => (false, "e".data)⟩ [] [] ⟨"a".data, "b".data⟩
    (fun _ _ => rfl) (by decide)

/-- C10: both values of any normally returned result mapping are free of
leading and trailing whitespace (each equals its own trim): the fragments are
initialized empty, every successful extraction strips its result, and the
exhaustion fallback substitutes the whitespace-free literal `"sorry"`. -/
theorem C10_results_stripped (env : Env) (pd tmpl : List Char) (res : LeanCode)
    (hrun : (main_workflow env pd tmpl).1 = Except.ok res) :
    strip res.code = res.code ∧ strip res.proof = res.proof := by
  rcases hr : main_workflow env pd tmpl with ⟨er, stF⟩
  rw [hr] at hrun
  dsimp only at hrun
  subst hrun
  exact runRounds_stripped env pd tmpl 3 0 initState res stF rfl rfl hr

/-- C10 witness: a successful round-0 run returns trimmed fragments. -/
theorem C10_results_stripped_witness :
    strip "a".data = "a".data ∧ strip "b".data = "b".data :=
  C10_results_stripped
    ⟨fun _ _ => GenResult.ok
      "-- << CODE START >>a-- << CODE END >>-- << PROOF START >>b-- << PROOF END >>".data,
     fun _ _ => (true, [])⟩ [] [] ⟨"a".data, "b".data⟩ (by decide)
